import Mathlib

/-!
# Verification of the cel2squirrel typed-expression-to-predicate compiler

Shallow embedding of `converter.go` from `zntrio/go-cel2squirrel`: the
converter walks an already-type-checked CEL expression tree (the protobuf
`exprpb.Expr` produced by the external `cel-go` compiler) and produces a
Squirrel predicate value.  The external CEL compile step is modelled as an
oracle input (`CompileResult`); everything downstream of it is translated
from the Go source.  Machine integers carry no arithmetic here, so `int64`
is `Int` and `uint64` is `Nat`; `float64` payloads are abstracted as `Rat`
(only their runtime *kind* is ever inspected by the converter).
-/

namespace Cel2Squirrel

/-- Runtime value kinds extracted from CEL constants, mirroring the Go
`interface{}` values produced by `getConstantValue`: `bool`, `int64`,
`uint64`, `float64`, `string`.  The Go `nil` (CEL `null`) is represented
as `Option.none` at use sites. -/
inductive Value where
  | boolVal (b : Bool)
  | intVal (i : Int)
  | uintVal (u : Nat)
  | doubleVal (d : Rat)
  | stringVal (s : String)
deriving DecidableEq, Repr

/-- The Go `%T` formatting of a runtime value, as used in diagnostic
messages (`expected string, got %T`). -/
def goTypeName : Option Value → String
  | none => "<nil>"
  | some (.boolVal _) => "bool"
  | some (.intVal _) => "int64"
  | some (.uintVal _) => "uint64"
  | some (.doubleVal _) => "float64"
  | some (.stringVal _) => "string"

/-- Protobuf `exprpb.Constant` kinds (`ConstantKind` oneof). Bytes
constants exist in the protobuf and fall into the converter's
unsupported-constant branch. -/
inductive Constant where
  | nullConst
  | boolConst (b : Bool)
  | intConst (i : Int)
  | uintConst (u : Nat)
  | doubleConst (d : Rat)
  | stringConst (s : String)
  | bytesConst (bs : List Nat)
deriving DecidableEq, Repr

/-- Protobuf `exprpb.Expr` nodes as navigated by the converter:
constants, identifiers, field selects, calls (with optional receiver),
list literals and struct literals (whose entries have an optional map
key, `GetMapKey` being nil for field-keyed entries). -/
inductive Expr where
  | constE (c : Constant)
  | identE (name : String)
  | selectE (operand : Expr) (field : String)
  | callE (function : String) (target : Option Expr) (args : List Expr)
  | listE (elements : List Expr)
  | structE (entries : List (Option Expr × Expr))

/-- The Go `%T` name of an expression's `ExprKind`, used in sanitized
fallthrough diagnostics. -/
def exprKindName : Expr → String
  | .constE _ => "*exprpb.Expr_ConstExpr"
  | .identE _ => "*exprpb.Expr_IdentExpr"
  | .selectE _ _ => "*exprpb.Expr_SelectExpr"
  | .callE _ _ _ => "*exprpb.Expr_CallExpr"
  | .listE _ => "*exprpb.Expr_ListExpr"
  | .structE _ => "*exprpb.Expr_StructExpr"

/-- CEL types as held in `ColumnMapping.Type`; `typeName` mirrors
`(*cel.Type).String()`, which is what `validateTypeCompatibility`
switches on. -/
inductive CelType where
  | string
  | int
  | uint
  | double
  | bool
  | timestamp
  | duration
  | bytes
  | listType (elem : CelType)
  | mapType (key value : CelType)
deriving DecidableEq, Repr

/-- Go `(*cel.Type).String()`.  Only the five primitive names are matched by
the converter; the remaining strings reproduce cel-go's rendering closely
enough that they all fall into the validator's default branch. -/
def CelType.typeName : CelType → String
  | .string => "string"
  | .int => "int"
  | .uint => "uint"
  | .double => "double"
  | .bool => "bool"
  | .timestamp => "google.protobuf.Timestamp"
  | .duration => "google.protobuf.Duration"
  | .bytes => "bytes"
  | .listType e => "list(" ++ e.typeName ++ ")"
  | .mapType k v => "map(" ++ k.typeName ++ ", " ++ v.typeName ++ ")"

/-- Go `ColumnMapping`: a CEL field's declared type and SQL column.  The Go
field `Type` is a Lean keyword, hence `typ`. -/
structure ColumnMapping where
  typ : Option CelType
  Column : String
deriving DecidableEq, Repr

/-- The converter state built by `NewConverter`: column mappings, field
declarations, the three limits, and the authorization policy.  Maps are
embedded as association lists (Go map iteration order is unspecified;
no claim below depends on an order, see `extractReferencedFields`). -/
structure Converter where
  columnMappings : List (String × String)
  fieldDeclarations : List (String × ColumnMapping)
  maxExpressionLength : Nat
  maxExpressionDepth : Nat
  maxInClauseSize : Nat
  publicFields : List String
  fieldACL : List (String × List String)
deriving DecidableEq, Repr

/-- Conversion-time errors.  `conversionError` is the Go
`*ConversionError{PublicMessage, ErrorCode, InternalError}`;
`plainError` is a bare `fmt.Errorf`; `wrapped` is
`fmt.Errorf("prefix: %w", inner)`, preserving the chain that
`errors.As` unwraps. -/
inductive ConvErr where
  | conversionError (publicMessage : String) (errorCode : String) (internalMsg : String)
  | plainError (msg : String)
  | wrapped (pre : String) (inner : ConvErr)
deriving DecidableEq, Repr

/-- The machine-readable code reachable through the error chain, i.e.
what `errors.As(err, &convErr); convErr.ErrorCode` observes.  `none` for
bare `fmt.Errorf` errors, which carry no code. -/
def errorCodeOf : ConvErr → Option String
  | .conversionError _ code _ => some code
  | .plainError _ => none
  | .wrapped _ inner => errorCodeOf inner

/-- The `Error()` string of the error, i.e. what the caller sees:
`ConversionError.Error()` returns only the public message, and
`fmt.Errorf("%s: %w", ...)` concatenates. -/
def publicMessageOf : ConvErr → String
  | .conversionError msg _ _ => msg
  | .plainError msg => msg
  | .wrapped pre inner => pre ++ publicMessageOf inner

/-- Squirrel predicate values as constructed by the converter.
`eq`/`notEq` carry an optional scalar (Go `nil` = `none`, the IS NULL
form); `eqList` is `squirrel.Eq` holding a slice (the IN form); `notS`
is the package's `notSqlizer`; `exprStr` is `squirrel.Expr("TRUE")` /
`squirrel.Expr("FALSE")`. -/
inductive Sqlizer where
  | eq (column : String) (value : Option Value)
  | notEq (column : String) (value : Option Value)
  | eqList (column : String) (values : List (Option Value))
  | lt (column : String) (value : Option Value)
  | ltOrEq (column : String) (value : Option Value)
  | gt (column : String) (value : Option Value)
  | gtOrEq (column : String) (value : Option Value)
  | and (left right : Sqlizer)
  | or (left right : Sqlizer)
  | notS (inner : Sqlizer)
  | like (column : String) (pattern : String)
  | exprStr (s : String)
deriving DecidableEq, Repr

/-- Go `ConvertResult{Where, Args}`. -/
structure ConvertResult where
  Where : Sqlizer
  Args : List (Option Value)
deriving DecidableEq, Repr

/-! ## Pattern escaper (`escapeLikePattern`) -/

/-- Go `strings.ReplaceAll` restricted to a single-character pattern, which
is the only way `escapeLikePattern` uses it: every occurrence of
`target` is replaced by `repl`, left to right. -/
def replaceAllChar (target : Char) (repl : List Char) : List Char → List Char
  | [] => []
  | ch :: rest => (if ch = target then repl else [ch]) ++ replaceAllChar target repl rest

/-- Go `escapeLikePattern`: escape backslash first, then `%`, then `_`,
then `[` and `]`, each replaced by its backslash-prefixed form. -/
def escapeLikePattern (s : String) : String :=
  let s1 := replaceAllChar '\\' ['\\', '\\'] s.data
  let s2 := replaceAllChar '%' ['\\', '%'] s1
  let s3 := replaceAllChar '_' ['\\', '_'] s2
  let s4 := replaceAllChar '[' ['\\', '['] s3
  let s5 := replaceAllChar ']' ['\\', ']'] s4
  String.mk s5

/-- Specification-level escaper: a single left-to-right pass replacing
each of the five LIKE metacharacters by its backslash-prefixed literal
form.  This is what the source's escape *order* is meant to achieve
(escaping backslash after inserting escape backslashes would
double-escape); compared against `escapeLikePattern` below. -/
def charEscapeSpec (ch : Char) : List Char :=
  if ch = '\\' ∨ ch = '%' ∨ ch = '_' ∨ ch = '[' ∨ ch = ']' then ['\\', ch] else [ch]

/-- Specification-level escaper lifted to strings. -/
def escapeSpec (s : String) : String :=
  String.mk (s.data.flatMap charEscapeSpec)

/-! ## Limit guard: `calculateExpressionDepth` -/

mutual

/-- Go `calculateExpressionDepth`: a call node is `1 + max(depth of target
if present, depths of all arguments)`; select adds 1 over its operand;
list and struct nodes add 1 over their deepest member (a struct entry's
nil map key contributes 0); leaves have depth 1. -/
def calculateExpressionDepth : Expr → Nat
  | .constE _ => 1
  | .identE _ => 1
  | .selectE operand _ => calculateExpressionDepth operand + 1
  | .callE _ target args => max (depthOfTarget target) (depthOfList args) + 1
  | .listE elements => depthOfList elements + 1
  | .structE entries => depthOfEntries entries + 1

/-- Depth of an optional call target: a nil target contributes 0. -/
def depthOfTarget : Option Expr → Nat
  | none => 0
  | some e => calculateExpressionDepth e

/-- Maximum depth over call arguments / list elements (0 when empty). -/
def depthOfList : List Expr → Nat
  | [] => 0
  | e :: es => max (calculateExpressionDepth e) (depthOfList es)

/-- Maximum depth over struct entries' keys and values (0 when empty). -/
def depthOfEntries : List (Option Expr × Expr) → Nat
  | [] => 0
  | (k, v) :: es =>
      max (max (depthOfTarget k) (calculateExpressionDepth v)) (depthOfEntries es)

end

/-! ## Authorization filter -/

mutual

/-- The field names recorded by `extractReferencedFields`' walk, in
visit order and with duplicates: every identifier's name and every
field-select's field (`walkExpr` applies the visitor to a node before
recursing into its children). -/
def collectFields : Expr → List String
  | .constE _ => []
  | .identE name => [name]
  | .selectE operand field => field :: collectFields operand
  | .callE _ target args => collectFieldsOfTarget target ++ collectFieldsOfList args
  | .listE elements => collectFieldsOfList elements
  | .structE entries => collectFieldsOfEntries entries

/-- Fields of an optional call target (nil target: none). -/
def collectFieldsOfTarget : Option Expr → List String
  | none => []
  | some e => collectFields e

/-- Fields of call arguments / list elements, in order. -/
def collectFieldsOfList : List Expr → List String
  | [] => []
  | e :: es => collectFields e ++ collectFieldsOfList es

/-- Fields of struct entries (key before value, as `walkExpr` does). -/
def collectFieldsOfEntries : List (Option Expr × Expr) → List String
  | [] => []
  | (k, v) :: es =>
      collectFieldsOfTarget k ++ collectFields v ++ collectFieldsOfEntries es

end

/-- Go `extractReferencedFields`: the distinct field names referenced in
the tree.  The Go code accumulates them in a map and then iterates it
in unspecified order; the embedding fixes first-visit order (no result
below depends on the order, only on membership). -/
def extractReferencedFields (e : Expr) : List String :=
  (collectFields e).dedup

/-- Go `isFieldAuthorized`: public fields pass outright; otherwise the
field's ACL entry must exist and share a role with the caller. -/
def isFieldAuthorized (c : Converter) (field : String) (userRoles : List String) : Bool :=
  if c.publicFields.contains field then
    true
  else
    match c.fieldACL.lookup field with
    | some allowedRoles => userRoles.any fun userRole => allowedRoles.any fun allowedRole => userRole = allowedRole
    | none => false

/-! ## Predicate compiler helpers -/

/-- Go `mapFieldName`: schema-resolved column, defaulting to the field
name itself when unmapped. -/
def mapFieldName (c : Converter) (field : String) : String :=
  match c.columnMappings.lookup field with
  | some mapped => mapped
  | none => field

/-- Go `getFieldName`: identifiers and field-selects resolve to a field
name; anything else is a (plain, code-less) error. -/
def getFieldName : Expr → Except ConvErr String
  | .identE name => .ok name
  | .selectE _ field => .ok field
  | e => .error (.plainError ("expression is not a field identifier: " ++ exprKindName e))

/-- Go `getFieldName` applied to a call's optional receiver.  cel-go never
produces the string operators without a receiver (they are method-only),
so the nil case is unreachable from compiled input; the Go code would
fault dereferencing it, embedded as a generic non-field error. -/
def getFieldNameOfTarget : Option Expr → Except ConvErr String
  | none => .error (.plainError "expression is not a field identifier: <nil>")
  | some e => getFieldName e

/-- Go `getConstantValue`: literal constants become runtime values; the
CEL `null` literal becomes Go `nil` (`none`); bytes constants and
non-constant expressions are (plain) errors. -/
def getConstantValue : Expr → Except ConvErr (Option Value)
  | .constE (.boolConst b) => .ok (some (.boolVal b))
  | .constE (.intConst i) => .ok (some (.intVal i))
  | .constE (.uintConst u) => .ok (some (.uintVal u))
  | .constE (.doubleConst d) => .ok (some (.doubleVal d))
  | .constE (.stringConst s) => .ok (some (.stringVal s))
  | .constE .nullConst => .ok none
  | .constE (.bytesConst _) => .error (.plainError "unsupported constant type: *exprpb.Constant_BytesValue")
  | e => .error (.plainError ("expression is not a constant: " ++ exprKindName e))

/-- The element loop of `getListValues`, tracking the element index for
the wrapping diagnostic. -/
def getListValuesLoop (i : Nat) : List Expr → Except ConvErr (List (Option Value))
  | [] => .ok []
  | elem :: rest =>
      match getConstantValue elem with
      | .error err => .error (.wrapped ("failed to get list element " ++ toString i ++ ": ") err)
      | .ok val =>
          match getListValuesLoop (i + 1) rest with
          | .error err => .error err
          | .ok vals => .ok (val :: vals)

/-- Go `getListValues`: the right operand must be a literal list, its
length is capped by `maxInClauseSize` before any value is materialized,
and each element must be a constant (element failures are wrapped with
their index). -/
def getListValues (c : Converter) (e : Expr) : Except ConvErr (List (Option Value)) :=
  match e with
  | .listE elements =>
      if elements.length > c.maxInClauseSize then
        .error (.plainError ("IN clause size " ++ toString elements.length ++
          " exceeds maximum of " ++ toString c.maxInClauseSize))
      else
        getListValuesLoop 0 elements
  | _ => .error (.plainError ("expression is not a list: " ++ exprKindName e))

/-- Go `validateTypeCompatibility`: defense-in-depth runtime check that a
literal's kind matches the field's declared type; undeclared fields and
non-primitive declared types are skipped.  Returns the Go error message
on mismatch, `none` on success. -/
def validateTypeCompatibility (c : Converter) (fieldName : String) (value : Value) : Option String :=
  match c.fieldDeclarations.lookup fieldName with
  | none => none
  | some mapping =>
      match mapping.typ with
      | none => none
      | some fieldType =>
          match fieldType.typeName with
          | "string" =>
              match value with
              | .stringVal _ => none
              | v => some ("expected string, got " ++ goTypeName (some v))
          | "int" =>
              match value with
              | .intVal _ => none
              | v => some ("expected int, got " ++ goTypeName (some v))
          | "double" =>
              match value with
              | .doubleVal _ => none
              | v => some ("expected double, got " ++ goTypeName (some v))
          | "bool" =>
              match value with
              | .boolVal _ => none
              | v => some ("expected bool, got " ++ goTypeName (some v))
          | "uint" =>
              match value with
              | .uintVal _ => none
              | v => some ("expected uint, got " ++ goTypeName (some v))
          | _ => none

/-- Go `convertComparison`: left operand must name a field, right operand
must be a constant; a non-null value is first checked against the
field's declared type (mismatch: `TYPE_MISMATCH`, sanitized public
message); the null literal yields the IS NULL / IS NOT NULL forms for
`=` / `!=`; otherwise the operator picks the squirrel comparison. -/
def convertComparison (c : Converter) (args : List Expr) (op : String) : Except ConvErr Sqlizer :=
  match args with
  | [lhs, rhs] =>
      match getFieldName lhs with
      | .error err => .error err
      | .ok field =>
          let column := mapFieldName c field
          match getConstantValue rhs with
          | .error err => .error err
          | .ok value =>
              match value with
              | some v =>
                  match validateTypeCompatibility c field v with
                  | some msg =>
                      .error (.conversionError "invalid comparison type" "TYPE_MISMATCH"
                        ("type mismatch for field " ++ field ++ ": " ++ msg))
                  | none =>
                      match op with
                      | "=" => .ok (.eq column (some v))
                      | "==" => .ok (.eq column (some v))
                      | "!=" => .ok (.notEq column (some v))
                      | "<" => .ok (.lt column (some v))
                      | "<=" => .ok (.ltOrEq column (some v))
                      | ">" => .ok (.gt column (some v))
                      | ">=" => .ok (.gtOrEq column (some v))
                      | _ => .error (.plainError ("unsupported comparison operator: " ++ op))
              | none =>
                  match op with
                  | "=" => .ok (.eq column none)
                  | "==" => .ok (.eq column none)
                  | "!=" => .ok (.notEq column none)
                  | "<" => .ok (.lt column none)
                  | "<=" => .ok (.ltOrEq column none)
                  | ">" => .ok (.gt column none)
                  | ">=" => .ok (.gtOrEq column none)
                  | _ => .error (.plainError ("unsupported comparison operator: " ++ op))
  | _ => .error (.plainError ("comparison operator requires exactly 2 arguments, got " ++ toString args.length))

/-- Go `convertInOperator`: field on the left, literal list on the right,
rendered as `squirrel.Eq` holding the slice; no per-element type check
is performed. -/
def convertInOperator (c : Converter) (args : List Expr) : Except ConvErr Sqlizer :=
  match args with
  | [lhs, rhs] =>
      match getFieldName lhs with
      | .error err => .error err
      | .ok field =>
          let column := mapFieldName c field
          match getListValues c rhs with
          | .error err => .error err
          | .ok list => .ok (.eqList column list)
  | _ => .error (.plainError ("IN operator requires exactly 2 arguments, got " ++ toString args.length))

/-- Go `convertContains`: exactly one argument, receiver names a field,
argument must be a string constant; the escaped literal is wrapped
with `%` on both sides (`fmt.Sprintf("%%%s%%", escaped)`). -/
def convertContains (c : Converter) (target : Option Expr) (args : List Expr) : Except ConvErr Sqlizer :=
  match args with
  | [arg] =>
      match getFieldNameOfTarget target with
      | .error err => .error err
      | .ok field =>
          let column := mapFieldName c field
          match getConstantValue arg with
          | .error err => .error err
          | .ok value =>
              match value with
              | some (.stringVal strValue) =>
                  .ok (.like column ("%" ++ escapeLikePattern strValue ++ "%"))
              | v => .error (.plainError ("contains() requires string argument, got " ++ goTypeName v))
  | _ => .error (.plainError ("contains() requires exactly 1 argument, got " ++ toString args.length))

/-- Go `convertStartsWith`: as `convertContains`, but the escaped literal
gets only a trailing `%` (`fmt.Sprintf("%s%%", escaped)`). -/
def convertStartsWith (c : Converter) (target : Option Expr) (args : List Expr) : Except ConvErr Sqlizer :=
  match args with
  | [arg] =>
      match getFieldNameOfTarget target with
      | .error err => .error err
      | .ok field =>
          let column := mapFieldName c field
          match getConstantValue arg with
          | .error err => .error err
          | .ok value =>
              match value with
              | some (.stringVal strValue) =>
                  .ok (.like column (escapeLikePattern strValue ++ "%"))
              | v => .error (.plainError ("startsWith() requires string argument, got " ++ goTypeName v))
  | _ => .error (.plainError ("startsWith() requires exactly 1 argument, got " ++ toString args.length))

/-- Go `convertEndsWith`: as `convertContains`, but the escaped literal
gets only a leading `%` (`fmt.Sprintf("%%%s", escaped)`). -/
def convertEndsWith (c : Converter) (target : Option Expr) (args : List Expr) : Except ConvErr Sqlizer :=
  match args with
  | [arg] =>
      match getFieldNameOfTarget target with
      | .error err => .error err
      | .ok field =>
          let column := mapFieldName c field
          match getConstantValue arg with
          | .error err => .error err
          | .ok value =>
              match value with
              | some (.stringVal strValue) =>
                  .ok (.like column ("%" ++ escapeLikePattern strValue))
              | v => .error (.plainError ("endsWith() requires string argument, got " ++ goTypeName v))
  | _ => .error (.plainError ("endsWith() requires exactly 1 argument, got " ++ toString args.length))

/-- Go `convertConstExpr`: only boolean constants are renderable at top
level, as `squirrel.Expr("TRUE")` / `squirrel.Expr("FALSE")`. -/
def convertConstExpr : Constant → Except ConvErr Sqlizer
  | .boolConst true => .ok (.exprStr "TRUE")
  | .boolConst false => .ok (.exprStr "FALSE")
  | _ => .error (.plainError "unsupported constant type at top level")

mutual

/-- Go `convertExpr`: dispatch on node kind — calls go through the
function table, a standalone identifier is a boolean-field test
(`squirrel.Eq{column: true}`), constants go to `convertConstExpr`, and
every other node kind is rejected. -/
def convertExpr (c : Converter) : Expr → Except ConvErr Sqlizer
  | .callE function target args => convertCallExpr c function target args
  | .identE name => .ok (.eq (mapFieldName c name) (some (.boolVal true)))
  | .constE k => convertConstExpr k
  | e => .error (.plainError ("unsupported expression type: " ++ exprKindName e))

/-- Go `convertCallExpr`: the closed function table.  Unknown function
names are rejected with the sanitized `UNSUPPORTED_OPERATION` error
(the raw name goes only into the internal diagnostic). -/
def convertCallExpr (c : Converter) (function : String) (target : Option Expr) (args : List Expr) :
    Except ConvErr Sqlizer :=
  match function with
  | "_&&_" => convertLogicalAnd c args
  | "_||_" => convertLogicalOr c args
  | "!_" => convertLogicalNot c args
  | "_==_" => convertComparison c args "="
  | "_!=_" => convertComparison c args "!="
  | "_<_" => convertComparison c args "<"
  | "_<=_" => convertComparison c args "<="
  | "_>_" => convertComparison c args ">"
  | "_>=_" => convertComparison c args ">="
  | "@in" => convertInOperator c args
  | "contains" => convertContains c target args
  | "startsWith" => convertStartsWith c target args
  | "endsWith" => convertEndsWith c target args
  | f => .error (.conversionError "unsupported filter operation" "UNSUPPORTED_OPERATION"
      ("unsupported CEL function: " ++ f))

/-- Go `convertLogicalAnd`: exactly two children, converted left first
(the first failing child aborts). -/
def convertLogicalAnd (c : Converter) (args : List Expr) : Except ConvErr Sqlizer :=
  match args with
  | [a, b] =>
      match convertExpr c a with
      | .error err => .error err
      | .ok left =>
          match convertExpr c b with
          | .error err => .error err
          | .ok right => .ok (.and left right)
  | _ => .error (.plainError ("AND operator requires exactly 2 arguments, got " ++ toString args.length))

/-- Go `convertLogicalOr`: exactly two children, converted left first. -/
def convertLogicalOr (c : Converter) (args : List Expr) : Except ConvErr Sqlizer :=
  match args with
  | [a, b] =>
      match convertExpr c a with
      | .error err => .error err
      | .ok left =>
          match convertExpr c b with
          | .error err => .error err
          | .ok right => .ok (.or left right)
  | _ => .error (.plainError ("OR operator requires exactly 2 arguments, got " ++ toString args.length))

/-- Go `convertLogicalNot`: exactly one child, wrapped in the package's
`notSqlizer`. -/
def convertLogicalNot (c : Converter) (args : List Expr) : Except ConvErr Sqlizer :=
  match args with
  | [a] =>
      match convertExpr c a with
      | .error err => .error err
      | .ok inner => .ok (.notS inner)
  | _ => .error (.plainError ("NOT operator requires exactly 1 argument, got " ++ toString args.length))

end

/-! ## Top-level conversion -/

/-- The outcome of the external cel-go pipeline that `Convert` runs
before its own work: `c.env.Compile` (issues mean `INVALID_SYNTAX`),
`OutputType()` and `cel.AstToCheckedExpr` (whose failure path is a
proto-marshalling internality, modelled as never firing).  The typed
AST and its output type are inputs to the embedded converter. -/
inductive CompileResult where
  | issues (errMsg : String)
  | ok (outputType : CelType) (ast : Expr)

/-- Go `%v` rendering of a `[]string`, used in internal diagnostics. -/
def goFmtStrSlice (xs : List String) : String :=
  "[" ++ String.intercalate " " xs ++ "]"

/-- Go `Convert`: length guard on the raw text, external compile, boolean
output check, depth guard, then the predicate compiler; a compiler
error is wrapped (`failed to convert CEL to SQL: %w`).  Success always
carries an empty top-level `Args` slice. -/
def Convert (c : Converter) (celExpr : String) (compiled : CompileResult) :
    Except ConvErr ConvertResult :=
  if celExpr.utf8ByteSize > c.maxExpressionLength then
    .error (.plainError ("expression exceeds maximum length of " ++
      toString c.maxExpressionLength ++ " characters (got " ++ toString celExpr.utf8ByteSize ++ ")"))
  else
    match compiled with
    | .issues errMsg =>
        .error (.conversionError "invalid filter expression syntax" "INVALID_SYNTAX"
          ("CEL compilation failed: " ++ errMsg))
    | .ok outputType ast =>
        if outputType ≠ CelType.bool then
          .error (.conversionError "filter expression must evaluate to boolean" "INVALID_TYPE"
            ("expected boolean, got " ++ outputType.typeName))
        else
          if calculateExpressionDepth ast > c.maxExpressionDepth then
            .error (.plainError ("expression exceeds maximum depth of " ++
              toString c.maxExpressionDepth ++ " (got " ++ toString (calculateExpressionDepth ast) ++ ")"))
          else
            match convertExpr c ast with
            | .error err => .error (.wrapped "failed to convert CEL to SQL: " err)
            | .ok sqlizer => .ok { Where := sqlizer, Args := [] }

/-- Go `ConvertWithAuth`: with no policy configured it is `Convert`;
otherwise the same front guards run, then the authorization filter
walks the referenced fields **before** the depth guard, and the first
unauthorized field aborts with the fixed sanitized error. -/
def ConvertWithAuth (c : Converter) (celExpr : String) (userRoles : List String)
    (compiled : CompileResult) : Except ConvErr ConvertResult :=
  if c.publicFields.length = 0 ∧ c.fieldACL.length = 0 then
    Convert c celExpr compiled
  else
    if celExpr.utf8ByteSize > c.maxExpressionLength then
      .error (.plainError ("expression exceeds maximum length of " ++
        toString c.maxExpressionLength ++ " characters (got " ++ toString celExpr.utf8ByteSize ++ ")"))
    else
      match compiled with
      | .issues errMsg =>
          .error (.conversionError "invalid filter expression syntax" "INVALID_SYNTAX"
            ("CEL compilation failed: " ++ errMsg))
      | .ok outputType ast =>
          if outputType ≠ CelType.bool then
            .error (.conversionError "filter expression must evaluate to boolean" "INVALID_TYPE"
              ("expected boolean, got " ++ outputType.typeName))
          else
            match (extractReferencedFields ast).find? (fun field => !isFieldAuthorized c field userRoles) with
            | some field =>
                .error (.conversionError "access denied: insufficient permissions for requested filter"
                  "UNAUTHORIZED_FIELD"
                  ("user with roles " ++ goFmtStrSlice userRoles ++
                    " attempted to filter by restricted field: " ++ field))
            | none =>
                if calculateExpressionDepth ast > c.maxExpressionDepth then
                  .error (.plainError ("expression exceeds maximum depth of " ++
                    toString c.maxExpressionDepth ++ " (got " ++ toString (calculateExpressionDepth ast) ++ ")"))
                else
                  match convertExpr c ast with
                  | .error err => .error (.wrapped "failed to convert CEL to SQL: " err)
                  | .ok sqlizer => .ok { Where := sqlizer, Args := [] }

/-! ## Rendering model of the external squirrel query builder

The converter's output is consumed by the Masterminds/squirrel builder.
Its rendering of the predicate shapes produced here is pinned by this
repository's own tests (`converter_test.go`): `Eq` with a nil value
renders `col IS NULL` with no bound values, `NotEq` nil renders
`col IS NOT NULL`, `Eq` with an empty slice renders the always-false
`(1=0)` with no bound values and with a non-empty slice `col IN (?,…)`,
`Like` renders `col LIKE ?` binding the pattern, conjunctions join with
parentheses, and `notSqlizer.ToSql` wraps `NOT (…)`.  `none` models a
rendering error (squirrel rejects nil with order comparisons). -/

/-- Go `?` placeholders for `n` bound values, comma-separated. -/
def placeholders : Nat → String
  | 0 => ""
  | 1 => "?"
  | n + 1 => "?," ++ placeholders n

/-- Squirrel's `ToSql` on the predicate shapes the converter emits:
the SQL fragment and its ordered bound values. -/
def toSql : Sqlizer → Option (String × List (Option Value))
  | .eq column none => some (column ++ " IS NULL", [])
  | .eq column (some v) => some (column ++ " = ?", [some v])
  | .notEq column none => some (column ++ " IS NOT NULL", [])
  | .notEq column (some v) => some (column ++ " <> ?", [some v])
  | .eqList column values =>
      if values.isEmpty then some ("(1=0)", [])
      else some (column ++ " IN (" ++ placeholders values.length ++ ")", values)
  | .lt _ none => none
  | .lt column (some v) => some (column ++ " < ?", [some v])
  | .ltOrEq _ none => none
  | .ltOrEq column (some v) => some (column ++ " <= ?", [some v])
  | .gt _ none => none
  | .gt column (some v) => some (column ++ " > ?", [some v])
  | .gtOrEq _ none => none
  | .gtOrEq column (some v) => some (column ++ " >= ?", [some v])
  | .and left right =>
      match toSql left, toSql right with
      | some (s1, a1), some (s2, a2) => some ("(" ++ s1 ++ " AND " ++ s2 ++ ")", a1 ++ a2)
      | _, _ => none
  | .or left right =>
      match toSql left, toSql right with
      | some (s1, a1), some (s2, a2) => some ("(" ++ s1 ++ " OR " ++ s2 ++ ")", a1 ++ a2)
      | _, _ => none
  | .notS inner =>
      match toSql inner with
      | some (s, a) => some ("NOT (" ++ s ++ ")", a)
      | none => none
  | .like column pattern => some (column ++ " LIKE ?", [some (.stringVal pattern)])
  | .exprStr s => some (s, [])

/-! ## Shared fixtures and lemmas -/

/-- A converter with no column mappings, no declarations and no policy
(the secure default limits), used to instantiate general theorems. -/
def cPlain : Converter := ⟨[], [], 10000, 50, 1000, [], []⟩

/-- The outward error codes actually produced by the converter (or the
absence of one, for bare plain errors). -/
def outwardCodeOnly (err : ConvErr) : Prop :=
  errorCodeOf err = none ∨ errorCodeOf err = some "INVALID_SYNTAX" ∨
    errorCodeOf err = some "INVALID_TYPE" ∨ errorCodeOf err = some "UNSUPPORTED_OPERATION" ∨
    errorCodeOf err = some "TYPE_MISMATCH" ∨ errorCodeOf err = some "UNAUTHORIZED_FIELD"

/-- Substring search over character lists: true when `needle` occurs
contiguously in the scanned list (the semantics of Go
`strings.Contains`). -/
def strContainsAux (needle : List Char) : List Char → Bool
  | [] => needle.isEmpty
  | c :: rest => needle.isPrefixOf (c :: rest) || strContainsAux needle rest

/-- Go `strings.Contains hay needle`. -/
def strContains (hay needle : String) : Bool := strContainsAux needle.data hay.data

/-- A converter with tiny limits (length 5, depth 1, IN size 2), used
to exhibit limit violations concretely. -/
def cLim : Converter := ⟨[], [], 5, 1, 2, [], []⟩

/-- A converter declaring an integer field `age`, used to exhibit the
absence of membership/string type checks. -/
def cInt : Converter := ⟨[("age", "age")], [("age", ⟨some .int, "age"⟩)], 10000, 50, 1000, [], []⟩

/-- A converter with an authorization policy (`status` public) and a
depth limit of 1, used to exhibit the auth-before-depth ordering. -/
def cAuthCex : Converter := ⟨[], [], 10000, 1, 1000, ["status"], []⟩

/-- The typed AST of `secret == "x"`: depth 2, referencing `secret`. -/
def astCex : Expr := .callE "_==_" none [.identE "secret", .constE (.stringConst "x")]

/-- A converter declaring a field literally named `denied`, with a
configured policy that does not authorize it. -/
def cDenied : Converter :=
  ⟨[("denied", "denied")], [("denied", ⟨some .string, "denied"⟩)], 10000, 50, 1000, ["other"], []⟩

/-- Go `strings.ReplaceAll` with a single-character pattern is the
character-wise flat map. -/
theorem replaceAllChar_eq_flatMap (target : Char) (repl : List Char) (l : List Char) :
    replaceAllChar target repl l = l.flatMap (fun ch => if ch = target then repl else [ch]) := by
  induction l with
  | nil => rfl
  | cons ch rest ih => simp [replaceAllChar, ih, List.flatMap]

/-- The source's escape order (backslash, percent, underscore, brackets)
composes to exactly one escaping pass: no inserted escape backslash is
ever re-escaped. -/
theorem escapeLikePattern_eq_escapeSpec (s : String) : escapeLikePattern s = escapeSpec s := by
  unfold escapeLikePattern escapeSpec
  simp only [replaceAllChar_eq_flatMap, List.flatMap_assoc]
  congr 1
  apply List.flatMap_congr
  intro ch _
  by_cases h1 : ch = '\\'
  · subst h1; simp [charEscapeSpec]
  · by_cases h2 : ch = '%'
    · subst h2; simp [charEscapeSpec]
    · by_cases h3 : ch = '_'
      · subst h3; simp [charEscapeSpec]
      · by_cases h4 : ch = '['
        · subst h4; simp [charEscapeSpec]
        · by_cases h5 : ch = ']'
          · subst h5; simp [charEscapeSpec]
          · simp [charEscapeSpec, h1, h2, h3, h4, h5]

/-! ## Claim theorems -/

/-- C1: the pattern escaper replaces backslash first, then percent,
then underscore, then the two brackets, each by its backslash-prefixed
literal form — equivalently, it acts as the single-pass per-character
escape map on every string; and `contains("%_\")` on field `f` yields
the LIKE predicate whose bound pattern is `%\%\_\\%`. -/
theorem escapeLikePattern_order_and_contains_example :
    (∀ s : String, escapeLikePattern s = escapeSpec s) ∧
    convertCallExpr cPlain "contains" (some (.identE "f")) [.constE (.stringConst "%_\\")] =
      .ok (.like "f" "%\\%\\_\\\\%") ∧
    toSql (.like "f" "%\\%\\_\\\\%") = some ("f LIKE ?", [some (.stringVal "%\\%\\_\\\\%")]) := by
  refine ⟨escapeLikePattern_eq_escapeSpec, ?_, rfl⟩
  have hesc : escapeLikePattern "%_\\" = "\\%\\_\\\\" := by decide
  simp [convertCallExpr, convertContains, getFieldNameOfTarget, getFieldName, getConstantValue,
    mapFieldName, cPlain, hesc]

/-- C2: every string-operator call on a field receiver with a single
string-literal argument escapes the literal first and adds the
structural wildcards afterwards: `contains` puts `%` on both sides of
the escaped literal, `startsWith` only a trailing `%`, `endsWith` only
a leading `%`, each yielding a single Like predicate on the mapped
column. -/
theorem stringOperators_escape_then_wrap (c : Converter) (tgt : Expr) (field s : String)
    (h : getFieldName tgt = .ok field) :
    convertCallExpr c "contains" (some tgt) [.constE (.stringConst s)] =
      .ok (.like (mapFieldName c field) ("%" ++ escapeLikePattern s ++ "%")) ∧
    convertCallExpr c "startsWith" (some tgt) [.constE (.stringConst s)] =
      .ok (.like (mapFieldName c field) (escapeLikePattern s ++ "%")) ∧
    convertCallExpr c "endsWith" (some tgt) [.constE (.stringConst s)] =
      .ok (.like (mapFieldName c field) ("%" ++ escapeLikePattern s)) := by
  refine ⟨?_, ?_, ?_⟩ <;>
    simp [convertCallExpr, convertContains, convertStartsWith, convertEndsWith,
      getFieldNameOfTarget, h, getConstantValue]

/-- Witness for C2 at a concrete receiver and literal. -/
theorem stringOperators_escape_then_wrap_witness :
    convertCallExpr cPlain "contains" (some (.identE "f")) [.constE (.stringConst "ab")] =
      .ok (.like "f" "%ab%") := by
  have h := (stringOperators_escape_then_wrap cPlain (.identE "f") "f" "ab" rfl).1
  have hesc : escapeLikePattern "ab" = "ab" := by decide
  have hmap : mapFieldName cPlain "f" = "f" := rfl
  rw [hesc, hmap] at h
  exact h

/-- C5: a comparison of a field against the null literal is rewritten
to the IS NULL / IS NOT NULL null-check forms (`squirrel.Eq`/`NotEq`
holding nil), which render with zero bound values — never a comparison
against a bound NULL parameter. -/
theorem nullComparison_isNullCheck (c : Converter) (tgt : Option Expr) (lhs : Expr) (field : String)
    (h : getFieldName lhs = .ok field) :
    convertCallExpr c "_==_" tgt [lhs, .constE .nullConst] =
      .ok (.eq (mapFieldName c field) none) ∧
    convertCallExpr c "_!=_" tgt [lhs, .constE .nullConst] =
      .ok (.notEq (mapFieldName c field) none) ∧
    toSql (.eq (mapFieldName c field) none) = some (mapFieldName c field ++ " IS NULL", []) ∧
    toSql (.notEq (mapFieldName c field) none) = some (mapFieldName c field ++ " IS NOT NULL", []) := by
  refine ⟨?_, ?_, rfl, rfl⟩ <;>
    simp [convertCallExpr, convertComparison, h, getConstantValue]

/-- Witness for C5 at a concrete field. -/
theorem nullComparison_isNullCheck_witness :
    convertCallExpr cPlain "_==_" none [.identE "deletedAt", .constE .nullConst] =
      .ok (.eq "deletedAt" none) := by
  have h := (nullComparison_isNullCheck cPlain none (.identE "deletedAt") "deletedAt" rfl).1
  simpa [mapFieldName, cPlain] using h

/-- C6: membership against the empty literal list succeeds and yields
`squirrel.Eq` holding the empty slice, which renders as the safe
always-false `(1=0)` with zero bound values — never an empty IN
clause. -/
theorem emptyInList_alwaysFalse (c : Converter) (tgt : Option Expr) (lhs : Expr) (field : String)
    (h : getFieldName lhs = .ok field) :
    convertCallExpr c "@in" tgt [lhs, .listE []] = .ok (.eqList (mapFieldName c field) []) ∧
    toSql (.eqList (mapFieldName c field) []) = some ("(1=0)", []) := by
  constructor
  · simp [convertCallExpr, convertInOperator, h, getListValues, getListValuesLoop]
  · rfl

/-- Witness for C6 at a concrete field. -/
theorem emptyInList_alwaysFalse_witness :
    convertCallExpr cPlain "@in" none [.identE "status", .listE []] =
      .ok (.eqList "status" []) := by
  have h := (emptyInList_alwaysFalse cPlain none (.identE "status") "status" rfl).1
  simpa [mapFieldName, cPlain] using h

/-- Go `isFieldAuthorized` characterized: public membership or a role
shared with the field's ACL entry (an absent entry grants nothing). -/
theorem isFieldAuthorized_iff (c : Converter) (field : String) (roles : List String) :
    isFieldAuthorized c field roles = true ↔
      field ∈ c.publicFields ∨ ∃ role ∈ roles, role ∈ (c.fieldACL.lookup field).getD [] := by
  unfold isFieldAuthorized
  cases hacl : c.fieldACL.lookup field with
  | none => simp [hacl]
  | some allowed =>
      by_cases hpub : field ∈ c.publicFields
      · simp [hacl, hpub]
      · have hc : c.publicFields.contains field = false := by simp [hpub]
        simp [hacl, hpub, hc, List.any_eq_true]

/-- Successful `Convert` always returns an empty top-level `Args`. -/
theorem Convert_ok_args_nil (c : Converter) (celExpr : String) (compiled : CompileResult)
    (result : ConvertResult) (h : Convert c celExpr compiled = .ok result) : result.Args = [] := by
  unfold Convert at h
  repeat' split at h
  all_goals simp_all
  all_goals (cases h; rfl)

/-- Successful `ConvertWithAuth` always returns an empty top-level `Args`. -/
theorem ConvertWithAuth_ok_args_nil (c : Converter) (celExpr : String) (userRoles : List String)
    (compiled : CompileResult) (result : ConvertResult)
    (h : ConvertWithAuth c celExpr userRoles compiled = .ok result) : result.Args = [] := by
  unfold ConvertWithAuth at h
  repeat' split at h
  all_goals first
    | exact Convert_ok_args_nil c celExpr compiled result h
    | simp_all
  all_goals (cases h; rfl)

/-- C7: a field is authorized exactly when it is in `publicFields` or
the caller's role set intersects its `fieldACL` entry; and when the
policy has neither `publicFields` nor `fieldACL` entries,
`ConvertWithAuth` performs no authorization work and returns exactly
what `Convert` returns. -/
theorem authorization_iff_and_disabled_without_policy (c : Converter) (field : String)
    (roles : List String) (celExpr : String) (userRoles : List String) (compiled : CompileResult) :
    (isFieldAuthorized c field roles = true ↔
      field ∈ c.publicFields ∨ ∃ role ∈ roles, role ∈ (c.fieldACL.lookup field).getD []) ∧
    (c.publicFields = [] → c.fieldACL = [] →
      ConvertWithAuth c celExpr userRoles compiled = Convert c celExpr compiled) := by
  refine ⟨isFieldAuthorized_iff c field roles, fun h1 h2 => ?_⟩
  unfold ConvertWithAuth
  simp [h1, h2]

/-- Witness for C7 with the empty policy. -/
theorem authorization_iff_and_disabled_without_policy_witness :
    (isFieldAuthorized cPlain "status" ["admin"] = true ↔
      "status" ∈ cPlain.publicFields ∨
        ∃ role ∈ ["admin"], role ∈ (cPlain.fieldACL.lookup "status").getD []) ∧
    ConvertWithAuth cPlain "x" [] (.issues "m") = Convert cPlain "x" (.issues "m") :=
  ⟨(authorization_iff_and_disabled_without_policy cPlain "status" ["admin"] "x" [] (.issues "m")).1,
   (authorization_iff_and_disabled_without_policy cPlain "status" ["admin"] "x" [] (.issues "m")).2
     rfl rfl⟩

/-- C10: whenever `Convert` or `ConvertWithAuth` succeeds, the
returned `ConvertResult.Args` is the empty slice — bound values travel
only inside the `Where` predicate. -/
theorem convertResult_args_always_empty (c : Converter) (celExpr : String)
    (userRoles : List String) (compiled : CompileResult) (result : ConvertResult) :
    (Convert c celExpr compiled = .ok result → result.Args = []) ∧
    (ConvertWithAuth c celExpr userRoles compiled = .ok result → result.Args = []) :=
  ⟨Convert_ok_args_nil c celExpr compiled result,
   ConvertWithAuth_ok_args_nil c celExpr userRoles compiled result⟩

/-- Witness for C10 on a concrete successful conversion. -/
theorem convertResult_args_always_empty_witness :
    ({ Where := .eq "f" (some (.boolVal true)), Args := [] } : ConvertResult).Args = [] := by
  apply (convertResult_args_always_empty cPlain "f" [] (.ok .bool (.identE "f"))
    { Where := .eq "f" (some (.boolVal true)), Args := [] }).1
  simp [Convert, convertExpr, mapFieldName, cPlain, calculateExpressionDepth,
    show ("f" : String).utf8ByteSize = 1 from rfl]


/-! ## Error-code taxonomy (C3) -/

/-- Field-name extraction failures carry no error code. -/
theorem getFieldName_error_code (e : Expr) (err : ConvErr)
    (h : getFieldName e = .error err) : errorCodeOf err = none := by
  cases e <;> simp_all [getFieldName] <;> simp [← h, errorCodeOf]

/-- Constant extraction failures carry no error code. -/
theorem getConstantValue_error_code (e : Expr) (err : ConvErr)
    (h : getConstantValue e = .error err) : errorCodeOf err = none := by
  cases e with
  | constE k => cases k <;> simp_all [getConstantValue] <;> simp [← h, errorCodeOf]
  | identE name => simp [getConstantValue] at h; simp [← h, errorCodeOf]
  | selectE operand field => simp [getConstantValue] at h; simp [← h, errorCodeOf]
  | callE f t args => simp [getConstantValue] at h; simp [← h, errorCodeOf]
  | listE elements => simp [getConstantValue] at h; simp [← h, errorCodeOf]
  | structE entries => simp [getConstantValue] at h; simp [← h, errorCodeOf]

/-- List-element extraction failures carry no error code. -/
theorem getListValuesLoop_error_code (l : List Expr) (i : Nat) (err : ConvErr)
    (h : getListValuesLoop i l = .error err) : errorCodeOf err = none := by
  induction l generalizing i with
  | nil => simp [getListValuesLoop] at h
  | cons elem rest ih =>
      unfold getListValuesLoop at h
      split at h
      · next heq =>
          simp only [Except.error.injEq] at h
          subst h
          simp [errorCodeOf, getConstantValue_error_code _ _ heq]
      · split at h
        · next heq2 =>
            simp only [Except.error.injEq] at h
            subst h
            exact ih (i + 1) heq2
        · simp at h

/-- List extraction failures (size cap included) carry no error code. -/
theorem getListValues_error_code (c : Converter) (e : Expr) (err : ConvErr)
    (h : getListValues c e = .error err) : errorCodeOf err = none := by
  unfold getListValues at h
  split at h
  · split at h
    · simp only [Except.error.injEq] at h
      subst h
      rfl
    · exact getListValuesLoop_error_code _ _ _ h
  · simp only [Except.error.injEq] at h
    subst h
    rfl

/-- Top-level constant failures carry no error code. -/
theorem convertConstExpr_error_code (k : Constant) (err : ConvErr)
    (h : convertConstExpr k = .error err) : errorCodeOf err = none := by
  cases k
  case boolConst b => cases b <;> simp [convertConstExpr] at h
  all_goals (simp [convertConstExpr] at h; simp [← h, errorCodeOf])

/-- A comparison failure is code-less or a TYPE_MISMATCH. -/
theorem convertComparison_error_code (c : Converter) (args : List Expr) (op : String) (err : ConvErr)
    (h : convertComparison c args op = .error err) :
    errorCodeOf err = none ∨ errorCodeOf err = some "TYPE_MISMATCH" := by
  unfold convertComparison at h
  repeat' split at h
  all_goals first
    | (simp at h
       subst h
       first
         | exact Or.inl rfl
         | exact Or.inr rfl
         | exact Or.inl (getFieldName_error_code _ _ (by assumption))
         | exact Or.inl (getConstantValue_error_code _ _ (by assumption)))
    | simp at h

/-- Receiver extraction failures carry no error code. -/
theorem getFieldNameOfTarget_error_code (t : Option Expr) (err : ConvErr)
    (h : getFieldNameOfTarget t = .error err) : errorCodeOf err = none := by
  cases t with
  | none => simp [getFieldNameOfTarget] at h; simp [← h, errorCodeOf]
  | some e => exact getFieldName_error_code e err h

/-- Failures of the contains branch carry no error code. -/
theorem convertContains_error_code (c : Converter) (target : Option Expr) (args : List Expr)
    (err : ConvErr) (h : convertContains c target args = .error err) : errorCodeOf err = none := by
  unfold convertContains at h
  repeat' split at h
  all_goals first
    | (simp at h
       subst h
       first
         | rfl
         | exact getFieldNameOfTarget_error_code _ _ (by assumption)
         | exact getConstantValue_error_code _ _ (by assumption))
    | simp at h

/-- Failures of the startsWith branch carry no error code. -/
theorem convertStartsWith_error_code (c : Converter) (target : Option Expr) (args : List Expr)
    (err : ConvErr) (h : convertStartsWith c target args = .error err) : errorCodeOf err = none := by
  unfold convertStartsWith at h
  repeat' split at h
  all_goals first
    | (simp at h
       subst h
       first
         | rfl
         | exact getFieldNameOfTarget_error_code _ _ (by assumption)
         | exact getConstantValue_error_code _ _ (by assumption))
    | simp at h

/-- Failures of the endsWith branch carry no error code. -/
theorem convertEndsWith_error_code (c : Converter) (target : Option Expr) (args : List Expr)
    (err : ConvErr) (h : convertEndsWith c target args = .error err) : errorCodeOf err = none := by
  unfold convertEndsWith at h
  repeat' split at h
  all_goals first
    | (simp at h
       subst h
       first
         | rfl
         | exact getFieldNameOfTarget_error_code _ _ (by assumption)
         | exact getConstantValue_error_code _ _ (by assumption))
    | simp at h

/-- Failures of the membership branch carry no error code. -/
theorem convertInOperator_error_code (c : Converter) (args : List Expr)
    (err : ConvErr) (h : convertInOperator c args = .error err) : errorCodeOf err = none := by
  unfold convertInOperator at h
  repeat' split at h
  all_goals first
    | (simp at h
       subst h
       first
         | rfl
         | exact getFieldName_error_code _ _ (by assumption)
         | exact getListValues_error_code _ _ _ (by assumption))
    | simp at h


/-- AND failures are code-less or propagate a child error code. -/
theorem convertLogicalAnd_error_code (c : Converter) (args : List Expr) (err : ConvErr)
    (IH : ∀ a ∈ args, ∀ e, convertExpr c a = .error e → errorCodeOf e = none ∨
      errorCodeOf e = some "UNSUPPORTED_OPERATION" ∨ errorCodeOf e = some "TYPE_MISMATCH")
    (h : convertLogicalAnd c args = .error err) :
    errorCodeOf err = none ∨ errorCodeOf err = some "UNSUPPORTED_OPERATION" ∨
      errorCodeOf err = some "TYPE_MISMATCH" := by
  unfold convertLogicalAnd at h
  split at h
  next a b =>
    split at h
    next e1 heq1 =>
      simp at h
      subst h
      exact IH a (by simp) e1 heq1
    next left heq1 =>
      split at h
      next e2 heq2 =>
        simp at h
        subst h
        exact IH b (by simp) e2 heq2
      next right heq2 => simp at h
  next harity =>
    simp at h
    subst h
    exact Or.inl rfl

/-- OR failures are code-less or propagate a child error code. -/
theorem convertLogicalOr_error_code (c : Converter) (args : List Expr) (err : ConvErr)
    (IH : ∀ a ∈ args, ∀ e, convertExpr c a = .error e → errorCodeOf e = none ∨
      errorCodeOf e = some "UNSUPPORTED_OPERATION" ∨ errorCodeOf e = some "TYPE_MISMATCH")
    (h : convertLogicalOr c args = .error err) :
    errorCodeOf err = none ∨ errorCodeOf err = some "UNSUPPORTED_OPERATION" ∨
      errorCodeOf err = some "TYPE_MISMATCH" := by
  unfold convertLogicalOr at h
  split at h
  next a b =>
    split at h
    next e1 heq1 =>
      simp at h
      subst h
      exact IH a (by simp) e1 heq1
    next left heq1 =>
      split at h
      next e2 heq2 =>
        simp at h
        subst h
        exact IH b (by simp) e2 heq2
      next right heq2 => simp at h
  next harity =>
    simp at h
    subst h
    exact Or.inl rfl

/-- NOT failures are code-less or propagate the child error code. -/
theorem convertLogicalNot_error_code (c : Converter) (args : List Expr) (err : ConvErr)
    (IH : ∀ a ∈ args, ∀ e, convertExpr c a = .error e → errorCodeOf e = none ∨
      errorCodeOf e = some "UNSUPPORTED_OPERATION" ∨ errorCodeOf e = some "TYPE_MISMATCH")
    (h : convertLogicalNot c args = .error err) :
    errorCodeOf err = none ∨ errorCodeOf err = some "UNSUPPORTED_OPERATION" ∨
      errorCodeOf err = some "TYPE_MISMATCH" := by
  unfold convertLogicalNot at h
  split at h
  next a =>
    split at h
    next e1 heq1 =>
      simp at h
      subst h
      exact IH a (by simp) e1 heq1
    next inner heq1 => simp at h
  next harity =>
    simp at h
    subst h
    exact Or.inl rfl

/-- Any failure of the predicate compiler proper is code-less or
carries UNSUPPORTED_OPERATION or TYPE_MISMATCH. -/
theorem convertExpr_error_code (c : Converter) :
    ∀ (fuel : Nat) (e : Expr), sizeOf e ≤ fuel → ∀ err, convertExpr c e = .error err →
      errorCodeOf err = none ∨ errorCodeOf err = some "UNSUPPORTED_OPERATION" ∨
        errorCodeOf err = some "TYPE_MISMATCH" := by
  intro fuel
  induction fuel with
  | zero =>
      intro e he
      exact absurd he (by cases e <;> simp_arith)
  | succ n ih =>
      intro e he err h
      cases e with
      | identE name => simp [convertExpr] at h
      | constE k =>
          simp only [convertExpr] at h
          exact Or.inl (convertConstExpr_error_code k err h)
      | selectE operand field =>
          simp [convertExpr] at h
          simp [← h, errorCodeOf]
      | listE elements =>
          simp [convertExpr] at h
          simp [← h, errorCodeOf]
      | structE entries =>
          simp [convertExpr] at h
          simp [← h, errorCodeOf]
      | callE f t args =>
          simp only [convertExpr] at h
          have IH : ∀ a ∈ args, ∀ e2, convertExpr c a = .error e2 →
              errorCodeOf e2 = none ∨ errorCodeOf e2 = some "UNSUPPORTED_OPERATION" ∨
                errorCodeOf e2 = some "TYPE_MISMATCH" := by
            intro a ha e2 he2
            have h1 := List.sizeOf_lt_of_mem ha
            have h2 : sizeOf args < sizeOf (Expr.callE f t args) := by simp_arith
            exact ih a (by omega) e2 he2
          unfold convertCallExpr at h
          split at h
          · exact convertLogicalAnd_error_code c args err IH h
          · exact convertLogicalOr_error_code c args err IH h
          · exact convertLogicalNot_error_code c args err IH h
          · exact (convertComparison_error_code c args "=" err h).imp id Or.inr
          · exact (convertComparison_error_code c args "!=" err h).imp id Or.inr
          · exact (convertComparison_error_code c args "<" err h).imp id Or.inr
          · exact (convertComparison_error_code c args "<=" err h).imp id Or.inr
          · exact (convertComparison_error_code c args ">" err h).imp id Or.inr
          · exact (convertComparison_error_code c args ">=" err h).imp id Or.inr
          · exact Or.inl (convertInOperator_error_code c args err h)
          · exact Or.inl (convertContains_error_code c t args err h)
          · exact Or.inl (convertStartsWith_error_code c t args err h)
          · exact Or.inl (convertEndsWith_error_code c t args err h)
          · simp at h
            simp [← h, errorCodeOf]



/-- Wrapping a compiler error preserves membership in the outward
code set. -/
theorem wrapped_code_outward (pre : String) (e : ConvErr)
    (h : errorCodeOf e = none ∨ errorCodeOf e = some "UNSUPPORTED_OPERATION" ∨
      errorCodeOf e = some "TYPE_MISMATCH") : outwardCodeOnly (.wrapped pre e) := by
  unfold outwardCodeOnly
  simp only [errorCodeOf]
  rcases h with h1 | h1 | h1 <;> simp [h1]

/-- Every error of Convert is code-less or carries one of the codes
INVALID_SYNTAX, INVALID_TYPE, UNSUPPORTED_OPERATION, TYPE_MISMATCH. -/
theorem Convert_error_code (c : Converter) (celExpr : String) (compiled : CompileResult)
    (err : ConvErr) (h : Convert c celExpr compiled = .error err) : outwardCodeOnly err := by
  unfold Convert at h
  split at h
  · simp at h; subst h; exact Or.inl rfl
  · split at h
    · simp at h; subst h; exact Or.inr (Or.inl rfl)
    · split at h
      · simp at h; subst h; exact Or.inr (Or.inr (Or.inl rfl))
      · split at h
        · simp at h; subst h; exact Or.inl rfl
        · split at h
          · next e heq =>
              simp at h; subst h
              exact wrapped_code_outward _ e
                (convertExpr_error_code c (sizeOf _) _ le_rfl e heq)
          · simp at h

/-- Every error of ConvertWithAuth is code-less or carries one of the
five codes plus UNAUTHORIZED_FIELD. -/
theorem ConvertWithAuth_error_code (c : Converter) (celExpr : String) (userRoles : List String)
    (compiled : CompileResult) (err : ConvErr)
    (h : ConvertWithAuth c celExpr userRoles compiled = .error err) : outwardCodeOnly err := by
  unfold ConvertWithAuth at h
  split at h
  · exact Convert_error_code c celExpr compiled err h
  · split at h
    · simp at h; subst h; exact Or.inl rfl
    · split at h
      · simp at h; subst h; exact Or.inr (Or.inl rfl)
      · split at h
        · simp at h; subst h; exact Or.inr (Or.inr (Or.inl rfl))
        · split at h
          · simp at h; subst h
            exact Or.inr (Or.inr (Or.inr (Or.inr (Or.inr rfl))))
          · split at h
            · simp at h; subst h; exact Or.inl rfl
            · split at h
              · next e heq =>
                  simp at h; subst h
                  exact wrapped_code_outward _ e
                    (convertExpr_error_code c (sizeOf _) _ le_rfl e heq)
              · simp at h

/-- With a policy configured, once the front guards pass, any
referenced unauthorized field aborts the conversion with the fixed
sanitized UNAUTHORIZED_FIELD error, before the depth guard runs. -/
theorem ConvertWithAuth_unauthorized (c : Converter) (celExpr : String) (userRoles : List String)
    (compiled : CompileResult) (ast : Expr)
    (hpolicy : ¬(c.publicFields.length = 0 ∧ c.fieldACL.length = 0))
    (hlen : ¬ celExpr.utf8ByteSize > c.maxExpressionLength)
    (hcomp : compiled = .ok .bool ast)
    (hunauth : ∃ f ∈ extractReferencedFields ast, isFieldAuthorized c f userRoles = false) :
    ∃ internal, ConvertWithAuth c celExpr userRoles compiled =
      .error (.conversionError "access denied: insufficient permissions for requested filter"
        "UNAUTHORIZED_FIELD" internal) := by
  subst hcomp
  have hsome : ((extractReferencedFields ast).find?
      (fun field => !isFieldAuthorized c field userRoles)).isSome := by
    rw [List.find?_isSome]
    obtain ⟨f, hmem, hfa⟩ := hunauth
    exact ⟨f, hmem, by simp [hfa]⟩
  obtain ⟨fld, hfind⟩ := Option.isSome_iff_exists.mp hsome
  refine ⟨"user with roles " ++ goFmtStrSlice userRoles ++
    " attempted to filter by restricted field: " ++ fld, ?_⟩
  unfold ConvertWithAuth
  simp [hpolicy, hlen, hfind]
  intro h1 h2
  exact absurd (by simp [h1, h2]) hpolicy



/-- C3 (amended): every conversion failure either carries one of the
codes INVALID_SYNTAX, INVALID_TYPE, UNSUPPORTED_OPERATION,
TYPE_MISMATCH, UNAUTHORIZED_FIELD or is a code-less plain error; in
particular, length, depth and membership-size violations fail with
code-less plain errors (there are no TOO_LONG / TOO_COMPLEX /
LIST_TOO_LARGE codes), and a failed conversion returns no predicate. -/
theorem conversionFailure_outward_codes (c : Converter) (celExpr : String)
    (userRoles : List String) (compiled : CompileResult) (ast : Expr) (elements : List Expr)
    (err : ConvErr) :
    (celExpr.utf8ByteSize > c.maxExpressionLength →
      Convert c celExpr compiled = .error (.plainError ("expression exceeds maximum length of " ++
        toString c.maxExpressionLength ++ " characters (got " ++ toString celExpr.utf8ByteSize ++ ")"))) ∧
    (¬ celExpr.utf8ByteSize > c.maxExpressionLength → compiled = .ok .bool ast →
      calculateExpressionDepth ast > c.maxExpressionDepth →
      Convert c celExpr compiled = .error (.plainError ("expression exceeds maximum depth of " ++
        toString c.maxExpressionDepth ++ " (got " ++ toString (calculateExpressionDepth ast) ++ ")"))) ∧
    (elements.length > c.maxInClauseSize →
      getListValues c (.listE elements) = .error (.plainError ("IN clause size " ++
        toString elements.length ++ " exceeds maximum of " ++ toString c.maxInClauseSize))) ∧
    (Convert c celExpr compiled = .error err →
      outwardCodeOnly err ∧ ∀ result, Convert c celExpr compiled ≠ .ok result) ∧
    (ConvertWithAuth c celExpr userRoles compiled = .error err → outwardCodeOnly err) := by
  refine ⟨?_, ?_, ?_, ?_, ?_⟩
  · intro hlen
    unfold Convert
    simp [hlen]
  · intro hnlen hcomp hdepth
    subst hcomp
    unfold Convert
    simp [hnlen, hdepth]
  · intro hsize
    unfold getListValues
    simp [hsize]
  · intro h
    refine ⟨Convert_error_code c celExpr compiled err h, fun result hok => ?_⟩
    rw [h] at hok
    cases hok
  · exact ConvertWithAuth_error_code c celExpr userRoles compiled err

/-- C3 counterexample: at a converter with maximum length 5, a
10-byte input fails with a plain error whose extractable code is
`none`, not `some "TOO_LONG"`; depth and IN-size violations likewise
produce plain errors. -/
theorem limitFailures_codeless_counterexample :
    Convert cLim "aaaaaaaaaa" (.issues "parse error") =
      .error (.plainError "expression exceeds maximum length of 5 characters (got 10)") ∧
    errorCodeOf (.plainError "expression exceeds maximum length of 5 characters (got 10)") = none ∧
    (none : Option String) ≠ some "TOO_LONG" ∧
    Convert cLim "abc" (.ok .bool (.selectE (.identE "a") "b")) =
      .error (.plainError "expression exceeds maximum depth of 1 (got 2)") ∧
    getListValues cLim
        (.listE [.constE (.intConst 1), .constE (.intConst 2), .constE (.intConst 3)]) =
      .error (.plainError "IN clause size 3 exceeds maximum of 2") := by
  refine ⟨rfl, rfl, by simp, rfl, rfl⟩

/-- Witness for C3 at concrete limit-violating inputs. -/
theorem conversionFailure_outward_codes_witness :
    Convert cLim "aaaaaaaaaa" (.issues "e") =
      .error (.plainError "expression exceeds maximum length of 5 characters (got 10)") ∧
    outwardCodeOnly (.conversionError "invalid filter expression syntax" "INVALID_SYNTAX"
      "CEL compilation failed: e") ∧
    getListValues cLim (.listE [.constE (.intConst 1), .constE (.intConst 2), .constE (.intConst 3)]) =
      .error (.plainError "IN clause size 3 exceeds maximum of 2") := by
  refine ⟨?_, ?_, ?_⟩
  · exact (conversionFailure_outward_codes cLim "aaaaaaaaaa" [] (.issues "e") (.identE "x") []
      (.plainError "")).1 (by decide)
  · exact ((conversionFailure_outward_codes cLim "bb" [] (.issues "e") (.identE "x") []
      (.conversionError "invalid filter expression syntax" "INVALID_SYNTAX"
        "CEL compilation failed: e")).2.2.2.1 rfl).1
  · exact (conversionFailure_outward_codes cLim "bb" [] (.issues "e") (.identE "x")
      [.constE (.intConst 1), .constE (.intConst 2), .constE (.intConst 3)]
      (.plainError "")).2.2.1 (by decide)


/-- C4 (amended): only the comparison branch performs the runtime
schema type check — a mismatching non-null literal fails as a
TYPE_MISMATCH conversion error whose public message is the fixed
string "invalid comparison type" (the field name appears only in the
internal diagnostic); the membership branch converts without any
per-element type check; the string operators demand only that the
argument be a string constant and fail with a code-less plain error
otherwise. -/
theorem runtime_type_check_comparison_only (c : Converter) (lhs rhs arg : Expr)
    (target : Option Expr) (op field msg : String) (v : Value) (value : Option Value)
    (vs : List (Option Value)) :
    (getFieldName lhs = .ok field → getConstantValue rhs = .ok (some v) →
      validateTypeCompatibility c field v = some msg →
      convertComparison c [lhs, rhs] op = .error (.conversionError "invalid comparison type"
        "TYPE_MISMATCH" ("type mismatch for field " ++ field ++ ": " ++ msg))) ∧
    (getFieldName lhs = .ok field → getListValues c rhs = .ok vs →
      convertInOperator c [lhs, rhs] = .ok (.eqList (mapFieldName c field) vs)) ∧
    (getFieldNameOfTarget target = .ok field → getConstantValue arg = .ok value →
      (∀ s, value ≠ some (.stringVal s)) →
      convertContains c target [arg] = .error (.plainError
        ("contains() requires string argument, got " ++ goTypeName value))) := by
  refine ⟨?_, ?_, ?_⟩
  · intro h1 h2 h3
    unfold convertComparison
    simp [h1, h2, h3]
  · intro h1 h2
    unfold convertInOperator
    simp [h1, h2]
  · intro h1 h2 h3
    unfold convertContains
    simp only [h1, h2]

/-- C4 counterexample: with `age` declared as an int field, the
membership `age in ["a"]` converts successfully even though the
converter's own validator reports the element's kind as mismatching —
no TYPE_MISMATCH is raised for membership. -/
theorem membership_skips_type_check_counterexample :
    validateTypeCompatibility cInt "age" (.stringVal "a") = some "expected int, got string" ∧
    Convert cInt "age in [\"a\"]"
        (.ok .bool (.callE "@in" none [.identE "age", .listE [.constE (.stringConst "a")]])) =
      .ok { Where := .eqList "age" [some (.stringVal "a")], Args := [] } := by
  constructor
  · rfl
  · simp [Convert, convertExpr, convertCallExpr, convertInOperator, getFieldName, getListValues,
      getListValuesLoop, getConstantValue, mapFieldName, cInt, calculateExpressionDepth,
      depthOfTarget, depthOfList, show ("age in [\"a\"]" : String).utf8ByteSize = 12 from rfl]

/-- Witness for C4 at concrete inputs over the `age` schema. -/
theorem runtime_type_check_comparison_only_witness :
    convertComparison cInt [.identE "age", .constE (.stringConst "a")] "=" =
      .error (.conversionError "invalid comparison type" "TYPE_MISMATCH"
        "type mismatch for field age: expected int, got string") ∧
    convertInOperator cInt [.identE "age", .listE [.constE (.stringConst "a")]] =
      .ok (.eqList "age" [some (.stringVal "a")]) ∧
    convertContains cInt (some (.identE "age")) [.constE (.intConst 1)] =
      .error (.plainError "contains() requires string argument, got int64") := by
  refine ⟨?_, ?_, ?_⟩
  · exact (runtime_type_check_comparison_only cInt (.identE "age") (.constE (.stringConst "a"))
      (.constE (.intConst 1)) none "=" "age" "expected int, got string" (.stringVal "a")
      none []).1 rfl rfl rfl
  · have h := (runtime_type_check_comparison_only cInt (.identE "age")
      (.listE [.constE (.stringConst "a")]) (.constE (.intConst 1)) none "=" "age" ""
      (.stringVal "a") none [some (.stringVal "a")]).2.1 rfl rfl
    simpa [mapFieldName, cInt] using h
  · exact (runtime_type_check_comparison_only cInt (.identE "age") (.constE (.stringConst "a"))
      (.constE (.intConst 1)) (some (.identE "age")) "=" "age" "" (.stringVal "a")
      (some (.intVal 1)) []).2.2 rfl rfl (fun s => by simp)


/-- C8 (amended): with a policy configured, the authorization filter
runs BEFORE the depth guard — an input that both exceeds
maxExpressionDepth and references an unauthorized field fails with
the UNAUTHORIZED_FIELD error, not the depth-limit error. -/
theorem authorization_runs_before_depth_guard (c : Converter) (celExpr : String)
    (userRoles : List String) (compiled : CompileResult) (ast : Expr)
    (hpolicy : ¬(c.publicFields.length = 0 ∧ c.fieldACL.length = 0))
    (hlen : ¬ celExpr.utf8ByteSize > c.maxExpressionLength)
    (hcomp : compiled = .ok .bool ast)
    (hdepth : calculateExpressionDepth ast > c.maxExpressionDepth)
    (hunauth : ∃ f ∈ extractReferencedFields ast, isFieldAuthorized c f userRoles = false) :
    ∃ internal,
      ConvertWithAuth c celExpr userRoles compiled =
        .error (.conversionError "access denied: insufficient permissions for requested filter"
          "UNAUTHORIZED_FIELD" internal) ∧
      ConvertWithAuth c celExpr userRoles compiled ≠
        .error (.plainError ("expression exceeds maximum depth of " ++
          toString c.maxExpressionDepth ++ " (got " ++
          toString (calculateExpressionDepth ast) ++ ")")) := by
  obtain ⟨internal, hres⟩ :=
    ConvertWithAuth_unauthorized c celExpr userRoles compiled ast hpolicy hlen hcomp hunauth
  refine ⟨internal, hres, fun hplain => ?_⟩
  rw [hres] at hplain
  simp at hplain

/-- C8 counterexample: `secret == "x"` has depth 2 against a depth
limit of 1 and references the unauthorized `secret`, yet
ConvertWithAuth returns the UNAUTHORIZED_FIELD error, not the
depth-limit error the claim predicts. -/
theorem depth_vs_auth_order_counterexample :
    calculateExpressionDepth astCex = 2 ∧ cAuthCex.maxExpressionDepth = 1 ∧
    isFieldAuthorized cAuthCex "secret" ["user"] = false ∧
    ConvertWithAuth cAuthCex "secret == \"x\"" ["user"] (.ok .bool astCex) =
      .error (.conversionError "access denied: insufficient permissions for requested filter"
        "UNAUTHORIZED_FIELD" "user with roles [user] attempted to filter by restricted field: secret") :=
  ⟨rfl, rfl, rfl, rfl⟩

/-- Witness for C8 at the concrete ordering scenario. -/
theorem authorization_runs_before_depth_guard_witness :
    ∃ internal,
      ConvertWithAuth cAuthCex "secret == \"x\"" ["user"] (.ok .bool astCex) =
        .error (.conversionError "access denied: insufficient permissions for requested filter"
          "UNAUTHORIZED_FIELD" internal) ∧
      ConvertWithAuth cAuthCex "secret == \"x\"" ["user"] (.ok .bool astCex) ≠
        .error (.plainError ("expression exceeds maximum depth of " ++
          toString cAuthCex.maxExpressionDepth ++ " (got " ++
          toString (calculateExpressionDepth astCex) ++ ")")) :=
  authorization_runs_before_depth_guard cAuthCex "secret == \"x\"" ["user"] (.ok .bool astCex)
    astCex (by decide) (by decide) rfl (by decide)
    ⟨"secret", by decide, by decide⟩


/-- C9 (amended): any two conversions that fail authorization produce
errors with the same code UNAUTHORIZED_FIELD and the same public
message — the fixed string "access denied: insufficient permissions
for requested filter", independent of the expression, the offending
field and the caller's roles. -/
theorem unauthorized_public_error_fixed (c1 c2 : Converter) (s1 s2 : String)
    (r1 r2 : List String) (k1 k2 : CompileResult) (a1 a2 : Expr)
    (hp1 : ¬(c1.publicFields.length = 0 ∧ c1.fieldACL.length = 0))
    (hl1 : ¬ s1.utf8ByteSize > c1.maxExpressionLength)
    (hc1 : k1 = .ok .bool a1)
    (hu1 : ∃ f ∈ extractReferencedFields a1, isFieldAuthorized c1 f r1 = false)
    (hp2 : ¬(c2.publicFields.length = 0 ∧ c2.fieldACL.length = 0))
    (hl2 : ¬ s2.utf8ByteSize > c2.maxExpressionLength)
    (hc2 : k2 = .ok .bool a2)
    (hu2 : ∃ f ∈ extractReferencedFields a2, isFieldAuthorized c2 f r2 = false) :
    ∃ i1 i2,
      ConvertWithAuth c1 s1 r1 k1 = .error (.conversionError
        "access denied: insufficient permissions for requested filter" "UNAUTHORIZED_FIELD" i1) ∧
      ConvertWithAuth c2 s2 r2 k2 = .error (.conversionError
        "access denied: insufficient permissions for requested filter" "UNAUTHORIZED_FIELD" i2) := by
  obtain ⟨i1, h1⟩ := ConvertWithAuth_unauthorized c1 s1 r1 k1 a1 hp1 hl1 hc1 hu1
  obtain ⟨i2, h2⟩ := ConvertWithAuth_unauthorized c2 s2 r2 k2 a2 hp2 hl2 hc2 hu2
  exact ⟨i1, i2, h1, h2⟩

/-- C9 counterexample: a declared field literally named `denied` is
a substring of the fixed public message, so the claim's clause that
the public message contains no declared field's name fails. -/
theorem unauthorized_message_contains_field_counterexample :
    ConvertWithAuth cDenied "denied" [] (.ok .bool (.identE "denied")) =
      .error (.conversionError "access denied: insufficient permissions for requested filter"
        "UNAUTHORIZED_FIELD" "user with roles [] attempted to filter by restricted field: denied") ∧
    (cDenied.fieldDeclarations.lookup "denied").isSome = true ∧
    strContains "access denied: insufficient permissions for requested filter" "denied" = true :=
  ⟨rfl, rfl, by decide⟩

/-- Witness for C9 on two concrete unauthorized conversions. -/
theorem unauthorized_public_error_fixed_witness :
    ∃ i1 i2,
      ConvertWithAuth cDenied "denied" [] (.ok .bool (.identE "denied")) = .error (.conversionError
        "access denied: insufficient permissions for requested filter" "UNAUTHORIZED_FIELD" i1) ∧
      ConvertWithAuth cAuthCex "secret == \"x\"" ["user"] (.ok .bool astCex) =
        .error (.conversionError
          "access denied: insufficient permissions for requested filter" "UNAUTHORIZED_FIELD" i2) :=
  unauthorized_public_error_fixed cDenied cAuthCex "denied" "secret == \"x\"" [] ["user"]
    (.ok .bool (.identE "denied")) (.ok .bool astCex) (.identE "denied") astCex
    (by decide) (by decide) rfl ⟨"denied", by decide, by decide⟩
    (by decide) (by decide) rfl ⟨"secret", by decide, by decide⟩

end Cel2Squirrel
